import Mathlib

/-!
Verification of the segmented-transfer engine of `downloader.py`.

The embedding models the pure content of the script:

* `partition`            — lines 84 and 88–89 plus the `Range` header of line
  110: chunk size `file_length // (session_num - 1)`, starts enumerated by
  `range(0, file_length, chunk_size)`, header end `start + (chunk_size - 1)`,
  1-based part numbers from `enumerate(..., 1)`.
* `concurrent_download`  — lines 64–100: probe, partition, fan out the ranged
  fetches, fan in with `asyncio.gather`, concatenate the fetched parts in
  emission order into the final artifact.
* `parallel_download`    — lines 44–61: one `concurrent_download` per URL,
  gathered; results in input order.
* `interim_save_path`    — line 113: temp-dir path of one interim part.

Python exceptions are modelled with `Except PyError`; the network is an
explicit `Env` (probe outcome plus a response function for ranged GETs), so
that one theorem can quantify over server behaviour where needed.
-/

namespace ParallelDownloader

/-- Bytes of content, as unbounded naturals: the program never performs
arithmetic on byte values, only moves them. -/
abbrev Bytes := List Nat

/-- Python exceptions the engine can raise: `ZeroDivisionError` from
`file_length // (session_num - 1)` at `session_num = 1` (line 84),
`ValueError` from `range(0, file_length, 0)` when the chunk size is zero
(line 88), and a transport-level `aiohttp` exception escaping a ranged
fetch (lines 117–121). -/
inductive PyError
  | zeroDivision
  | valueErrorZeroStep
  | transportError
deriving DecidableEq

/-- Outcome of the HEAD probe of lines 70–82: a declared `Content-Length`,
or one of the three exceptions `concurrent_download` catches there
(`ClientConnectionError`, `InvalidURL`, `KeyError` for a missing
`Content-Length` header). -/
inductive ProbeResult
  | ok (len : Nat)
  | connectionError
  | invalidUrl
  | keyError
deriving DecidableEq

/-- Outcome of one ranged GET (lines 117–121): the body the server streams
back — written to the interim file without any status inspection, exactly
as the code does — or a transport exception raised mid-stream. -/
inductive FetchOutcome
  | ok (body : Bytes)
  | exn
deriving DecidableEq

/-- Network environment of one resource: the probe outcome and, for each
`(start, end)` pair placed in a `Range: bytes=start-end` header, the
outcome of that ranged GET. -/
structure Env where
  probe : ProbeResult
  fetch : Nat → Nat → FetchOutcome

/-- One emitted byte range: inclusive `first` and `last` byte offsets as
they appear in the `Range` header of line 110, and the 1-based sequence
index from `enumerate(..., 1)` of line 88. -/
structure ByteRange where
  first : Nat
  last : Nat
  seq : Nat
deriving DecidableEq

/-- Number of parts emitted by `range(0, L, chunk)` for `chunk ≥ 1`:
the count of multiples of `chunk` below `L`, i.e. `⌈L / chunk⌉`. -/
def numParts (L chunk : Nat) : Nat := (L + chunk - 1) / chunk

/-- Ranges of lines 88–89 and 110 for a fixed chunk size `chunk ≥ 1`:
part `k` (0-based here, `seq = k + 1`) starts at `k * chunk` and its header
end is `start + (chunk - 1)` — the code passes `chunk_size - 1` at line 89
and the header is `bytes=start_byte-(start_byte + chunk_size)` at line 110.
The last end is not clamped to `L - 1`. -/
def rangesFor (L chunk : Nat) : List ByteRange :=
  (List.range (numParts L chunk)).map (fun k => ⟨k * chunk, k * chunk + (chunk - 1), k + 1⟩)

/-- Range partitioner of lines 84 and 88: `chunk = L // (S - 1)`, raising
`ZeroDivisionError` at `S = 1` and `ValueError` (zero step of `range`)
when the chunk size computes to `0` (that is, when `L < S - 1`, including
`L = 0`). Modelled for `S ≥ 1`, where Python's `int` subtraction agrees
with truncated `Nat` subtraction. -/
def partition (L S : Nat) : Except PyError (List ByteRange) :=
  if S = 1 then .error .zeroDivision
  else if L / (S - 1) = 0 then .error .valueErrorZeroStep
  else .ok (rangesFor L (L / (S - 1)))

/-- Body a range-compliant HTTP server streams for `Range: bytes=s-e` on a
resource with content `R`: bytes `s` through `min e (R.length - 1)`
inclusive (RFC 7233 clamps a last-byte-pos past the end). -/
def serveRange (R : Bytes) (s e : Nat) : Bytes := (R.drop s).take (e + 1 - s)

/-- Environment of a healthy resource with content `R`: the probe declares
the true length and every ranged GET returns exactly the requested window
of `R`. -/
def honestEnv (R : Bytes) : Env :=
  { probe := .ok R.length, fetch := fun s e => .ok (serveRange R s e) }

/-- Model of `_partial_download` (lines 103–124) for one range: the interim
file receives whatever body the response streams (the code checks no
status), and a transport exception propagates. Returns the interim file's
content. -/
def partDownload (e : Env) (r : ByteRange) : Except PyError Bytes :=
  match e.fetch r.first r.last with
  | .ok body => .ok body
  | .exn => .error .transportError

/-- Combining one fetch's outcome with the remaining fetches' outcomes, as
`asyncio.gather` does: any exception propagates, otherwise results keep
emission order. -/
def fetchStep : Except PyError Bytes → Except PyError (List Bytes) → Except PyError (List Bytes)
  | .error err, _ => .error err
  | .ok _, .error err => .error err
  | .ok b, .ok bs => .ok (b :: bs)

/-- Model of `asyncio.gather` over the partial downloads (line 90): the
results in emission order, or the exception of a failed fetch. -/
def gatherFetch (e : Env) : List ByteRange → Except PyError (List Bytes)
  | [] => .ok []
  | r :: rs => fetchStep (partDownload e r) (gatherFetch e rs)

/-- Assembly of lines 93–100: an exception escaping the gather propagates;
otherwise the interim parts are concatenated in emission order and written
to the save path, which is returned as the success value. -/
def assembleStep (save_path : String) :
    Except PyError (List Bytes) → Except PyError (Option (String × Bytes))
  | .error err => .error err
  | .ok parts => .ok (some (save_path, parts.flatten))

/-- Continuation of `concurrent_download` after the chunk size is computed
(lines 87–90): a partition error propagates (the `ValueError` or
`ZeroDivisionError` escapes the function), otherwise all ranges are
fetched concurrently and handed to assembly. -/
def afterPartition (e : Env) (save_path : String) :
    Except PyError (List ByteRange) → Except PyError (Option (String × Bytes))
  | .error err => .error err
  | .ok rs => assembleStep save_path (gatherFetch e rs)

/-- Model of `concurrent_download` (lines 64–100) proper: a caught probe
failure returns `None` (lines 74–82); otherwise partition, fetch, and
assemble. A successful run returns the save path paired with the bytes
written there. -/
def concurrent_download (S : Nat) (e : Env) (save_path : String) :
    Except PyError (Option (String × Bytes)) :=
  match e.probe with
  | .connectionError => .ok none
  | .invalidUrl => .ok none
  | .keyError => .ok none
  | .ok L => afterPartition e save_path (partition L S)

/-- Last path component, mirroring `Path(p).name` on the POSIX-style URL
paths the script handles: the characters after the last slash. -/
def lastComponent : List Char → List Char → List Char
  | [], acc => acc
  | c :: cs, acc => if c = '/' then lastComponent cs [] else lastComponent cs (acc ++ [c])

/-- Filename of a URL path, as `Path(urlparse(url).path).name` computes it
at lines 55, 113 and 132. -/
def pathName (p : String) : String := String.mk (lastComponent p.data [])

/-- Interim file path of line 113:
`tempfile.gettempdir() + "/" + Path(urlparse(url).path).name + ".part" + str(part_num)`.
The temp directory is platform state, passed in as `tmp`. -/
def interim_save_path (tmp : String) (urlPath : String) (partNum : Nat) : String :=
  tmp ++ "/" ++ pathName urlPath ++ ".part" ++ toString partNum

/-- One requested resource: the path component of its URL (which determines
both the destination filename and the interim-file key) and its network
environment. -/
structure Request where
  urlPath : String
  env : Env

/-- Combining one resource's outcome with the rest of the batch, as the
gather of line 59 does: an exception escaping any one download propagates
and aborts the batch; otherwise results keep input order. Each resource's
destination is `output_dir / basename(url.path)` (line 55). -/
def downloadStep :
    Except PyError (Option (String × Bytes)) →
    Except PyError (List (Option (String × Bytes))) →
    Except PyError (List (Option (String × Bytes)))
  | .error err, _ => .error err
  | .ok _, .error err => .error err
  | .ok v, .ok vs => .ok (v :: vs)

/-- Model of `parallel_download` (lines 44–61) proper: the per-URL results
in input order, or the first exception. Each resource is composed here as
a pure pipeline; the shared temp-directory namespace its fetchers actually
write through (line 113) is modelled separately by `resourceWrites`,
`batchWrites` and `storeAfter` below, and byte-content conclusions about
multi-resource batches are drawn only under pairwise-distinct interim
keys, where the pure composition provably agrees with every order in
which the concurrent writes can land (`storeAfter_perm`). Batches with a
shared URL basename overwrite each other's interim parts — line 113 keys
them by basename and part number only — and get no byte-content theorem. -/
def parallel_download (S : Nat) (outputDir : String) :
    List Request → Except PyError (List (Option (String × Bytes)))
  | [] => .ok []
  | r :: rs =>
    downloadStep (concurrent_download S r.env (outputDir ++ "/" ++ pathName r.urlPath))
      (parallel_download S outputDir rs)

/-- Environment of a resource whose URL is malformed: the probe raises
`aiohttp.InvalidURL`, which `concurrent_download` catches at line 77. -/
def invalidUrlEnv : Env := { probe := .invalidUrl, fetch := fun _ _ => .exn }

/-- Environment of a resource that probes fine (4 bytes declared) but whose
every ranged fetch raises a transport exception mid-stream. -/
def exnEnv : Env := { probe := .ok 4, fetch := fun _ _ => .exn }

/-- Environment of a 4-byte resource `[10, 11, 12, 13]` whose second range
fetch fails at the HTTP level: the response for `bytes=2-3` delivers no
body (for example an error status page), without a transport exception —
exactly the failure mode lines 117–121 do not inspect. -/
def lossyEnv : Env :=
  { probe := .ok 4,
    fetch := fun s e => if s = 2 then .ok [] else .ok (serveRange [10, 11, 12, 13] s e) }

/-- Zero-length resources produce no parts (when the chunk size is positive,
which never happens for `L = 0` in the program, but the lemma anchors the
recursion below). -/
theorem numParts_zero {c : Nat} (hc : 0 < c) : numParts 0 c = 0 := by
  unfold numParts
  exact Nat.div_eq_of_lt (by omega)

/-- Peeling one chunk off the front: for a nonempty resource the part count
is one more than that of the resource shortened by one chunk. -/
theorem numParts_succ {c : Nat} (hc : 0 < c) {L : Nat} (hL : 0 < L) :
    numParts L c = numParts (L - c) c + 1 := by
  unfold numParts
  rcases le_or_lt L c with h | h
  · have h0 : L - c = 0 := by omega
    rw [h0]
    have h1 : (0 + c - 1) / c = 0 := Nat.div_eq_of_lt (by omega)
    rw [h1]
    exact Nat.div_eq_of_lt_le (by omega) (by omega)
  · have h2 : L + c - 1 = (L - c + c - 1) + c := by omega
    rw [h2, Nat.add_div_right _ hc]

/-- Assembling consecutive `chunk`-sized windows of a list, one per emitted
part, reproduces the list. -/
theorem flatten_chunks {c : Nat} (hc : 0 < c) :
    ∀ (n : Nat) (R : Bytes), numParts R.length c = n →
      ((List.range n).map (fun k => ((R.drop (k * c)).take c))).flatten = R := by
  intro n
  induction n with
  | zero =>
    intro R h
    have hR : R.length = 0 := by
      by_contra hne
      have hpos : 0 < R.length := Nat.pos_of_ne_zero hne
      rw [numParts_succ hc hpos] at h
      omega
    have hnil : R = [] := List.eq_nil_of_length_eq_zero hR
    simp [hnil]
  | succ m ih =>
    intro R h
    have hL : 0 < R.length := by
      by_contra hne
      push_neg at hne
      have h0 : R.length = 0 := by omega
      rw [h0, numParts_zero hc] at h
      omega
    have hm : numParts (R.drop c).length c = m := by
      rw [List.length_drop]
      have hs := numParts_succ hc hL
      omega
    rw [List.range_succ_eq_map]
    simp only [List.map_cons, List.map_map, List.flatten_cons]
    have hshift : ∀ k : Nat,
        ((fun k => (R.drop (k * c)).take c) ∘ Nat.succ) k
          = ((R.drop c).drop (k * c)).take c := by
      intro k
      simp only [Function.comp_apply]
      rw [List.drop_drop, Nat.succ_mul, Nat.add_comm]
    rw [List.map_congr_left (fun a _ => hshift a), ih (R.drop c) hm]
    simp

/-! ### The pipeline on a healthy resource -/

/-- Gathering the partial downloads of a healthy resource succeeds and
returns, in emission order, exactly the requested byte windows. -/
theorem gatherFetch_honest (R : Bytes) (rs : List ByteRange) :
    gatherFetch (honestEnv R) rs
      = .ok (rs.map (fun r => serveRange R r.first r.last)) := by
  induction rs with
  | nil => rfl
  | cons r rs ih =>
    show fetchStep (partDownload (honestEnv R) r) (gatherFetch (honestEnv R) rs) = _
    rw [show partDownload (honestEnv R) r = .ok (serveRange R r.first r.last) from rfl, ih]
    rfl

/-- Concatenating the served windows of the emitted ranges, in emission
order, reproduces the resource: the window of part `k` is bytes
`k * c` through `k * c + (c - 1)` clamped to the end of the resource. -/
theorem assemble_rangesFor (R : Bytes) {c : Nat} (hc : 0 < c) :
    ((rangesFor R.length c).map (fun r => serveRange R r.first r.last)).flatten = R := by
  unfold rangesFor
  rw [List.map_map]
  have heq : ∀ k : Nat,
      ((fun r : ByteRange => serveRange R r.first r.last) ∘
        (fun k => (⟨k * c, k * c + (c - 1), k + 1⟩ : ByteRange))) k
        = (R.drop (k * c)).take c := by
    intro k
    simp only [Function.comp_apply, serveRange]
    congr 1
    omega
  rw [List.map_congr_left (fun a _ => heq a)]
  exact flatten_chunks hc (numParts R.length c) R rfl

/-- On a valid partition (`S ≠ 1` and a positive chunk size), the whole
pipeline on a healthy resource writes the resource's exact bytes to the
save path and reports success. -/
theorem concurrent_download_honest (R : Bytes) (S : Nat) (p : String)
    (hS : S ≠ 1) (hchunk : 1 ≤ R.length / (S - 1)) :
    concurrent_download S (honestEnv R) p = .ok (some (p, R)) := by
  have h1 : partition R.length S = .ok (rangesFor R.length (R.length / (S - 1))) := by
    unfold partition
    rw [if_neg hS, if_neg (by omega)]
  show afterPartition (honestEnv R) p (partition R.length S) = _
  rw [h1]
  show assembleStep p (gatherFetch (honestEnv R) (rangesFor R.length (R.length / (S - 1)))) = _
  rw [gatherFetch_honest]
  show Except.ok (some (p, _)) = _
  rw [assemble_rangesFor R (show 0 < R.length / (S - 1) by omega)]

/-! ### Disjointness and coverage of the emitted ranges -/

/-- Membership in the emitted range list: exactly the ranges
`[k * c, k * c + (c - 1)]` with sequence index `k + 1`, for each part
index `k` below the part count. -/
theorem mem_rangesFor {L c : Nat} {r : ByteRange} :
    r ∈ rangesFor L c ↔
      ∃ k, k < numParts L c ∧ r = ⟨k * c, k * c + (c - 1), k + 1⟩ := by
  unfold rangesFor
  simp only [List.mem_map, List.mem_range]
  constructor
  · rintro ⟨k, hk, rfl⟩
    exact ⟨k, hk, rfl⟩
  · rintro ⟨k, hk, rfl⟩
    exact ⟨k, hk, rfl⟩

/-- A byte inside the window of part `k` determines `k`: it is the byte's
offset divided by the chunk size. -/
theorem byte_range_index {c : Nat} (hc : 0 < c) {k b : Nat}
    (h1 : k * c ≤ b) (h2 : b ≤ k * c + (c - 1)) : b / c = k := by
  have h3 : b < (k + 1) * c := by
    have h4 : (k + 1) * c = k * c + c := by ring
    omega
  exact Nat.div_eq_of_lt_le h1 h3

/-- Every byte of the resource lies in at least one emitted range. -/
theorem rangesFor_cover {L c : Nat} (hc : 0 < c) {b : Nat} (hb : b < L) :
    ∃ r ∈ rangesFor L c, r.first ≤ b ∧ b ≤ r.last := by
  have hn : b / c < numParts L c := by
    have e1 : L + c - 1 = (L - 1) + c := by omega
    have e2 : numParts L c = (L - 1) / c + 1 := by
      unfold numParts
      rw [e1, Nat.add_div_right _ hc]
    rw [e2]
    exact Nat.lt_succ_of_le (Nat.div_le_div_right (by omega))
  refine ⟨⟨b / c * c, b / c * c + (c - 1), b / c + 1⟩,
    mem_rangesFor.mpr ⟨b / c, hn, rfl⟩, Nat.div_mul_le_self b c, ?_⟩
  show b ≤ b / c * c + (c - 1)
  have h1 := Nat.div_add_mod b c
  have h2 := Nat.mod_lt b hc
  have h3 : b / c * c = c * (b / c) := by ring
  omega

/-- No byte lies in two distinct emitted ranges: two ranges sharing a byte
are the same range. -/
theorem rangesFor_disjoint {L c : Nat} (hc : 0 < c) :
    ∀ r ∈ rangesFor L c, ∀ r' ∈ rangesFor L c, ∀ b : Nat,
      r.first ≤ b → b ≤ r.last → r'.first ≤ b → b ≤ r'.last → r = r' := by
  intro r hr r' hr' b h1 h2 h3 h4
  obtain ⟨k, hk, rfl⟩ := mem_rangesFor.mp hr
  obtain ⟨k', hk', rfl⟩ := mem_rangesFor.mp hr'
  have e1 : b / c = k := byte_range_index hc h1 h2
  have e2 : b / c = k' := byte_range_index hc h3 h4
  have : k = k' := by omega
  subst this
  rfl

/-- Every emitted range starts inside the resource: the enumeration
`range(0, L, chunk)` produces only starts below `L`. -/
theorem rangesFor_first_lt {L c : Nat} (hc : 0 < c) :
    ∀ r ∈ rangesFor L c, r.first < L := by
  intro r hr
  obtain ⟨k, hk, rfl⟩ := mem_rangesFor.mp hr
  show k * c < L
  by_contra hge
  push_neg at hge
  have h1 : L + c - 1 ≤ (c - 1) + k * c := by omega
  have h2 : numParts L c ≤ k := by
    unfold numParts
    calc (L + c - 1) / c ≤ ((c - 1) + k * c) / c := Nat.div_le_div_right h1
      _ = (c - 1) / c + k := Nat.add_mul_div_right _ _ hc
      _ = 0 + k := by rw [Nat.div_eq_of_lt (by omega)]
      _ = k := by omega
  omega

/-! ### Batches whose downloads do not raise -/

/-- C1 (amended): for `S ≥ 2` streams and a resource whose probed length
gives a positive chunk size (`L ≥ S - 1`), fetching every emitted range
from a server that serves the requested byte windows (clamped to the
resource's end) and concatenating the interim parts in ascending sequence
order reproduces the resource byte-for-byte; the gather hands the parts to
assembly in emission order irrespective of fetch completion order. The
claim's original quantification over every successfully probed resource is
refuted by `round_trip_counterexample`. -/
theorem round_trip (R : Bytes) (S : Nat) (p : String)
    (hS : 2 ≤ S) (hchunk : 1 ≤ R.length / (S - 1)) :
    concurrent_download S (honestEnv R) p = .ok (some (p, R)) :=
  concurrent_download_honest R S p (by omega) hchunk

/-- C1 witness: a 4-byte resource downloaded over 3 streams round-trips. -/
theorem round_trip_witness :
    concurrent_download 3 (honestEnv [0, 1, 2, 3]) "out/f.bin"
      = .ok (some ("out/f.bin", [0, 1, 2, 3])) :=
  round_trip [0, 1, 2, 3] 3 "out/f.bin" (by decide) (by decide)

/-- C1 counterexample: a 3-byte resource under the default 10 streams
probes successfully yet the pipeline raises `ValueError` (chunk size 0)
and produces no artifact at all, refuting the round-trip law as stated
for every successfully probed resource. -/
theorem round_trip_counterexample :
    (honestEnv [1, 2, 3]).probe = .ok 3 ∧
    concurrent_download 10 (honestEnv [1, 2, 3]) "d/f.bin"
      = .error .valueErrorZeroStep :=
  ⟨rfl, rfl⟩

/-! ### Claim C2 — partition disjointness and coverage -/

/-- C2 (amended): for `S ≥ 2` and a positive chunk size (`L ≥ S - 1`), the
partitioner emits the ranges `[k*chunk, k*chunk + chunk - 1]`; they are
pairwise disjoint, every byte of `[0, L-1]` lies in one of them, and every
emitted start lies below `L`. The clamping part of the original claim is
false — the last emitted end may exceed `L - 1`
(`partition_unclamped_counterexample`) — and for `S = 1`, `L = 0`, or
`0 < L < S - 1` the partitioner raises instead of emitting ranges. -/
theorem partition_disjoint_cover (L S : Nat) (hS : 2 ≤ S)
    (hchunk : 1 ≤ L / (S - 1)) :
    partition L S = .ok (rangesFor L (L / (S - 1))) ∧
    (∀ b, b < L → ∃ r ∈ rangesFor L (L / (S - 1)), r.first ≤ b ∧ b ≤ r.last) ∧
    (∀ r ∈ rangesFor L (L / (S - 1)), ∀ r' ∈ rangesFor L (L / (S - 1)), ∀ b : Nat,
      r.first ≤ b → b ≤ r.last → r'.first ≤ b → b ≤ r'.last → r = r') ∧
    (∀ r ∈ rangesFor L (L / (S - 1)), r.first < L) := by
  have hc : 0 < L / (S - 1) := hchunk
  refine ⟨?_, fun b hb => rangesFor_cover hc hb,
    rangesFor_disjoint hc, rangesFor_first_lt hc⟩
  unfold partition
  rw [if_neg (by omega), if_neg (by omega)]

/-- C2 witness: the partition of a 1000-byte resource over 4 streams. -/
theorem partition_disjoint_cover_witness :
    partition 1000 4 = .ok (rangesFor 1000 (1000 / (4 - 1))) ∧
    (∀ b, b < 1000 →
      ∃ r ∈ rangesFor 1000 (1000 / (4 - 1)), r.first ≤ b ∧ b ≤ r.last) ∧
    (∀ r ∈ rangesFor 1000 (1000 / (4 - 1)), ∀ r' ∈ rangesFor 1000 (1000 / (4 - 1)),
      ∀ b : Nat, r.first ≤ b → b ≤ r.last → r'.first ≤ b → b ≤ r'.last → r = r') ∧
    (∀ r ∈ rangesFor 1000 (1000 / (4 - 1)), r.first < 1000) :=
  partition_disjoint_cover 1000 4 (by decide) (by decide)

/-- C2 counterexample: the last emitted range of `L = 1000`, `S = 4` ends
at byte 1331, not at `L - 1 = 999` — the partitioner never clamps. -/
theorem partition_unclamped_counterexample :
    partition 1000 4
      = .ok [⟨0, 332, 1⟩, ⟨333, 665, 2⟩, ⟨666, 998, 3⟩, ⟨999, 1331, 4⟩] ∧
    1331 > 999 :=
  ⟨rfl, by decide⟩

/-! ### Claim C3 — failed range must not yield a false success -/

/-- C3 (code bug): the code never inspects a response's status or length
(lines 117–121) and gathers only completion (line 90), so a range whose
response delivers the wrong body without a transport exception still
assembles: the 4-byte resource `[10, 11, 12, 13]` whose second range
delivers no bytes is written as a 2-byte "successful" artifact, a false
success that silently drops the failed range's bytes. -/
theorem assembly_false_success :
    lossyEnv.probe = .ok ([10, 11, 12, 13] : Bytes).length ∧
    lossyEnv.fetch 0 1 = .ok (serveRange [10, 11, 12, 13] 0 1) ∧
    lossyEnv.fetch 2 3 ≠ .ok (serveRange [10, 11, 12, 13] 2 3) ∧
    concurrent_download 3 lossyEnv "d/f.bin" = .ok (some ("d/f.bin", [10, 11])) ∧
    ([10, 11] : Bytes) ≠ [10, 11, 12, 13] :=
  ⟨rfl, rfl, by decide, rfl, by decide⟩

/-! ### Claim C4 — stream count 1 -/

/-- C4 (code bug): at `S = 1` the chunk-size expression
`file_length // (session_num - 1)` divides by zero (line 84); there is no
special case, so no single full-width range is produced — the pipeline
raises `ZeroDivisionError` for every probed length. -/
theorem stream_one_zero_division (L : Nat) (f : Nat → Nat → FetchOutcome) (p : String) :
    concurrent_download 1 ⟨.ok L, f⟩ p = .error .zeroDivision := rfl

/-! ### Claim C5 — zero-length resource -/

/-- C5 (code bug): a resource whose probe declares length 0 computes chunk
size `0 // (S - 1) = 0`, so `range(0, 0, 0)` raises `ValueError` (shown at
the default `S = 10`); no zero-byte artifact is written. -/
theorem zero_length_value_error (f : Nat → Nat → FetchOutcome) (p : String) :
    concurrent_download 10 ⟨.ok 0, f⟩ p = .error .valueErrorZeroStep := rfl

/-! ### Claim C6 — the 1000-byte, 4-stream scenario -/

set_option maxRecDepth 10000 in
/-- C6 (amended): for `L = 1000`, `S = 4` the chunk size is
`1000 // 3 = 333` and four ranges are emitted with ascending starts and
sequence indices 1–4, but the last emitted range is `[999, 1331]` — its
end is `start + chunk - 1`, not clipped to 999; only the server's standard
clamping of the `Range` header makes its effective span `[999, 999]`, as
the `serveRange` equation shows on a 1000-byte resource. -/
theorem partition_1000_4 :
    partition 1000 4
      = .ok [⟨0, 332, 1⟩, ⟨333, 665, 2⟩, ⟨666, 998, 3⟩, ⟨999, 1331, 4⟩] ∧
    serveRange (List.range 1000) 999 1331 = serveRange (List.range 1000) 999 999 :=
  ⟨rfl, rfl⟩

/-- C6 counterexample: the four claimed ranges, with the last clipped to
`[999, 999]`, are not what the partitioner emits. -/
theorem partition_1000_4_counterexample :
    partition 1000 4
      ≠ .ok [⟨0, 332, 1⟩, ⟨333, 665, 2⟩, ⟨666, 998, 3⟩, ⟨999, 999, 4⟩] := by
  intro h
  have e : partition 1000 4
      = .ok [⟨0, 332, 1⟩, ⟨333, 665, 2⟩, ⟨666, 998, 3⟩, ⟨999, 1331, 4⟩] := rfl
  rw [e] at h
  simp at h

/-! ### Claim C7 — interim-file key uniqueness -/

/-- C7 (code bug): the interim path of line 113 is keyed by the basename of
the URL's path plus the part number only, with no resource identity: two
distinct resources whose URLs end in the same filename are written to the
same interim file for equal part numbers, whatever the temp directory —
concurrent fetchers of the two resources cross-talk. -/
theorem interim_path_collision (tmp : String) :
    "/x/f.bin" ≠ "/y/f.bin" ∧
    interim_save_path tmp "/x/f.bin" 1 = interim_save_path tmp "/y/f.bin" 1 :=
  ⟨by decide, rfl⟩

/-! ### Claim C8 — resource-scoped failure independence -/

/-- C8 (amended): probe-stage failures are resource-scoped — a resource
whose URL is malformed yields `None` while a healthy resource in the same
batch still completes with its artifact — but the independence stops
there: an exception during a range fetch of one resource propagates out of
the gather and aborts the whole batch (`batch_abort_counterexample`). -/
theorem probe_failure_isolated (R : Bytes) (S : Nat) (d bad good : String)
    (hS : 2 ≤ S) (hchunk : 1 ≤ R.length / (S - 1)) :
    parallel_download S d [⟨bad, invalidUrlEnv⟩, ⟨good, honestEnv R⟩]
      = .ok [none, some (d ++ "/" ++ pathName good, R)] := by
  have h1 : concurrent_download S invalidUrlEnv (d ++ "/" ++ pathName bad)
      = .ok none := rfl
  have h2 := concurrent_download_honest R S (d ++ "/" ++ pathName good)
    (by omega) hchunk
  show downloadStep (concurrent_download S invalidUrlEnv (d ++ "/" ++ pathName bad))
    (downloadStep (concurrent_download S (honestEnv R) (d ++ "/" ++ pathName good))
      (parallel_download S d [])) = _
  rw [h1, h2]
  rfl

/-- C8 witness: a malformed-URL resource and a healthy 2-byte resource
downloaded together over 3 streams. -/
theorem probe_failure_isolated_witness :
    parallel_download 3 "out" [⟨"/u/a.bin", invalidUrlEnv⟩, ⟨"/v/b.bin", honestEnv [5, 6]⟩]
      = .ok [none, some ("out" ++ "/" ++ pathName "/v/b.bin", [5, 6])] :=
  probe_failure_isolated [5, 6] 3 "out" "/u/a.bin" "/v/b.bin" (by decide) (by decide)

/-- C8 counterexample: when one resource of a batch fails during a range
fetch, the exception propagates out of `parallel_download` and the whole
batch aborts — the healthy resource, which on its own completes to its
artifact, gets no reported outcome, refuting "the batch never aborts early
because one resource failed". -/
theorem batch_abort_counterexample :
    parallel_download 3 "out" [⟨"/b/good.bin", honestEnv [1, 2, 3, 4]⟩, ⟨"/a/bad.bin", exnEnv⟩]
      = .error .transportError ∧
    concurrent_download 3 (honestEnv [1, 2, 3, 4]) ("out" ++ "/" ++ pathName "/b/good.bin")
      = .ok (some ("out/good.bin", [1, 2, 3, 4])) :=
  ⟨rfl, rfl⟩

/-! ### Claim C9 — small resources cannot be downloaded -/

/-- C9: for `S ≥ 2` and a probed length `0 < L < S - 1`, the chunk size
`L // (S - 1)` is 0 and `range(0, L, 0)` raises `ValueError`, whatever the
network would have answered: the download fails before any range fetch
starts. With the default `S = 10`, every resource of 1 to 8 bytes is
undownloadable. -/
theorem small_resource_value_error (S L : Nat) (f : Nat → Nat → FetchOutcome) (p : String)
    (hS : 2 ≤ S) (hL : 0 < L) (hsmall : L < S - 1) :
    L / (S - 1) = 0 ∧
    concurrent_download S ⟨.ok L, f⟩ p = .error .valueErrorZeroStep := by
  have h0 : L / (S - 1) = 0 := Nat.div_eq_of_lt hsmall
  refine ⟨h0, ?_⟩
  have hpart : partition L S = .error .valueErrorZeroStep := by
    unfold partition
    rw [if_neg (by omega), if_pos h0]
  show afterPartition ⟨.ok L, f⟩ p (partition L S) = _
  rw [hpart]
  rfl

/-- C9 witness: a 5-byte resource under the default 10 streams. -/
theorem small_resource_value_error_witness :
    (5 : Nat) / (10 - 1) = 0 ∧
    concurrent_download 10 ⟨.ok 5, fun _ _ => .ok []⟩ "p"
      = .error .valueErrorZeroStep :=
  small_resource_value_error 10 5 (fun _ _ => .ok []) "p" (by decide) (by decide) (by decide)

/-! ### Claim C10 — result-list shape -/

end ParallelDownloader
